import Mathlib

/-!
Verification of the bull-bear-api trading game core (src/api/index.py).

The Python module is embedded shallowly:
* floats (`time.time()`, cash, prices, quantities) become `ℚ`;
* Python `int(x)` truncation becomes `pyTrunc`, Python `round` (half-to-even)
  becomes `pyRound`;
* dictionaries keyed by fixed strings (the per-asset-type sentiment map)
  become functions `String → ℚ`;
* `random.random()` draws are passed in explicitly, one per asset, as a
  function `ℕ → ℚ` from the asset's position in the list;
* each endpoint handler becomes a pure state transformer; handlers that can
  return an HTTP error become `Except ApiError GameState`, and a handler that
  returns an error performs no state mutation in the source (it returns before
  any write), which the `Except` embedding mirrors by producing no state.

`get_state` (the state-poll / tick) is deliberately split into `tickRead`
(the portion the source runs with no lock held: computing `time_remaining`,
storing it, and updating prices) and `tickWrite` (the portion the source runs
while holding `game_locks[game_id]`: the round-advance / finish write), so
that interleavings of concurrent polls can be stated faithfully.
-/

namespace BullBear

/-- Python `int(x)` on a float: truncation toward zero. -/
def pyTrunc (q : ℚ) : ℤ :=
  if 0 ≤ q then q.floor else -((-q).floor)

/-- Python `round(x)` to an integer: round half to even (banker's rounding). -/
def pyRound (q : ℚ) : ℤ :=
  let f := q.floor
  if q - f < 1/2 then f
  else if 1/2 < q - f then f + 1
  else if f % 2 = 0 then f else f + 1

/-- Replace the first element satisfying `pred` by its image under `f`
(the Python sources look an element up with `next(...)` and then mutate that
object in place; this is the functional rendering of that pattern). -/
def replaceFirstBy (pred : α → Bool) (f : α → α) : List α → List α
  | [] => []
  | x :: xs => if pred x then f x :: xs else x :: replaceFirstBy pred f xs

/-- An asset row, as in INITIAL_ASSETS / the per-session catalog copy. -/
structure Asset where
  id : String
  name : String
  type : String
  baseVolatility : ℚ
  trendBias : String
  currentPrice : ℚ
  history : List ℚ
deriving DecidableEq, Repr

/-- A holding (src/api/index.py, dicts appended in buy_asset). -/
structure Holding where
  assetId : String
  quantity : ℚ
  avgBuyPrice : ℚ
deriving DecidableEq, Repr

/-- A power-up entry as created in create_player. -/
structure PowerUp where
  id : String
  name : String
  description : String
  usesLeft : ℤ
deriving DecidableEq, Repr

/-- A transaction-log entry as appended by buy_asset / sell_asset. -/
structure TransactionRecord where
  round : ℤ
  type : String
  assetId : String
  assetType : String
  amount : ℚ
  price : ℚ
  totalValue : ℚ
  eventActive : Option String
  sentimentAtTime : ℚ
deriving DecidableEq, Repr

/-- A player record as created by create_player. -/
structure Player where
  id : String
  name : String
  cash : ℚ
  holdings : List Holding
  riskScore : ℤ
  powerUps : List PowerUp
  totalValue : ℚ
  ready : Bool
  transactionLog : List TransactionRecord
  avatarId : Option String
  strategyId : Option String
deriving DecidableEq, Repr

/-- An active market event: optional per-asset-type impact map and optional
volatility multiplier.  (No code path in the module ever constructs one;
`update_prices` only reads it.)  The `impact` field is `none` when the key is
absent or the dict is falsy, matching the source's truthiness test. -/
structure MarketEvent where
  id : String
  impact : Option (String → ℚ)
  volatilityMultiplier : Option ℚ

/-- The per-game state dict built by create_new_game.  The scenario dicts
carry no data read anywhere else, so the active scenario is kept as its id. -/
structure GameState where
  id : String
  players : List Player
  assets : List Asset
  currentRound : ℤ
  maxRounds : ℤ
  activeEvent : Option MarketEvent
  phase : String
  subPhase : String
  timeRemaining : ℤ
  activeAssetType : String
  activeScenarioId : Option String
  fearZoneActive : Bool
  sentiment : String → ℚ
  roundStartTime : Option ℚ
  lastUpdate : ℚ

/-- INITIAL_ASSETS (src/api/index.py lines 25-62). -/
def INITIAL_ASSETS : List Asset :=
  [ { id := "AAPL", name := "Apple Inc.", type := "STOCK", baseVolatility := 4/5,
      trendBias := "UP", currentPrice := 150, history := [150] },
    { id := "BTC", name := "Bitcoin", type := "CRYPTO", baseVolatility := 5/2,
      trendBias := "SIDEWAYS", currentPrice := 45000, history := [45000] },
    { id := "GOVT", name := "Government Bonds", type := "BOND", baseVolatility := 3/10,
      trendBias := "SIDEWAYS", currentPrice := 100, history := [100] },
    { id := "SPY", name := "S&P 500 ETF", type := "ETF", baseVolatility := 3/5,
      trendBias := "UP", currentPrice := 400, history := [400] } ]

/-- create_new_game (lines 140-163); `now` stands for the `time.time()` call. -/
def create_new_game (gid : String) (now : ℚ) : GameState :=
  { id := gid
    players := []
    assets := INITIAL_ASSETS
    currentRound := 0
    maxRounds := 5
    activeEvent := none
    phase := "PRE_MATCH"
    subPhase := "INTRO"
    timeRemaining := 0
    activeAssetType := "ALL"
    activeScenarioId := none
    fearZoneActive := false
    sentiment := fun _ => 0
    roundStartTime := none
    lastUpdate := now }

/-- create_player (lines 174-191). -/
def create_player (pid nm : String) : Player :=
  { id := pid
    name := nm
    cash := 10000
    holdings := []
    riskScore := 0
    powerUps :=
      [ { id := "future-glimpse", name := "Risk Shield", description := "-20 Risk Score", usesLeft := 1 },
        { id := "market-freeze", name := "Bailout", description := "+$1000 Cash", usesLeft := 1 } ]
    totalValue := 10000
    ready := false
    transactionLog := []
    avatarId := none
    strategyId := none }

/-- One iteration of calculate_risk's accumulation loop (lines 199-204):
first component is `total_risk`, second is `total_portfolio_value`; holdings
whose asset cannot be found contribute nothing. -/
def riskStep (assets : List Asset) (acc : ℚ × ℚ) (h : Holding) : ℚ × ℚ :=
  match assets.find? (fun a => a.id == h.assetId) with
  | some a => (acc.1 + h.quantity * a.currentPrice * a.baseVolatility * 500,
               acc.2 + h.quantity * a.currentPrice)
  | none => acc

/-- The accumulation loop of calculate_risk (lines 196-204). -/
def riskTotals (p : Player) (assets : List Asset) : ℚ × ℚ :=
  p.holdings.foldl (riskStep assets) (0, 0)

/-- calculate_risk (lines 194-211). -/
def calculate_risk (p : Player) (assets : List Asset) : ℤ :=
  let t := riskTotals p assets
  if 0 < t.2 then
    let rs := min 100 (pyRound (t.1 / t.2 * 100))
    if p.strategyId = some "SAFETY_FIRST" then max 0 (rs - 10) else rs
  else 0

/-- One asset's price step inside update_prices (lines 216-242): news impact,
random volatility movement (`rnd` is the `random.random()` draw for this
asset), sentiment drift, then append to the bounded history. -/
def updatedAsset (ev : Option MarketEvent) (sent : String → ℚ) (rnd : ℚ) (a : Asset) : Asset :=
  let impactTerm : ℚ :=
    match ev with
    | some e =>
      match e.impact with
      | some m => if m a.type ≠ 0 then m a.type / 35 else 0
      | none => 0
    | none => 0
  let volMult : ℚ :=
    match ev with
    | some e =>
      match e.volatilityMultiplier with
      | some v => if v ≠ 0 then v else 1
      | none => 1
    | none => 1
  let change := impactTerm + (rnd - 1/2) * (15/1000) * a.baseVolatility * volMult
      + sent a.type / 100 * (5/100 / 35)
  let newPrice := a.currentPrice * (1 + change)
  let hist := a.history ++ [newPrice]
  { a with currentPrice := newPrice,
           history := if hist.length > 50 then hist.tail else hist }

/-- The asset loop of update_prices; `i` numbers the assets so that `rnd i`
is the i-th `random.random()` draw of the loop. -/
def advanceAssets (ev : Option MarketEvent) (sent : String → ℚ) (rnd : ℕ → ℚ) :
    ℕ → List Asset → List Asset
  | _, [] => []
  | i, a :: rest => updatedAsset ev sent (rnd i) a :: advanceAssets ev sent rnd (i + 1) rest

/-- The per-player recomputation at the end of update_prices (lines 245-252):
mark-to-market totalValue, then riskScore from scratch. -/
def recomputePlayer (assets : List Asset) (p : Player) : Player :=
  let hv := p.holdings.foldl
    (fun acc h =>
      match assets.find? (fun a => a.id == h.assetId) with
      | some a => acc + h.quantity * a.currentPrice
      | none => acc)
    0
  { p with totalValue := p.cash + hv, riskScore := calculate_risk p assets }

/-- update_prices (lines 214-252). -/
def update_prices (rnd : ℕ → ℚ) (gs : GameState) : GameState :=
  let assets1 := advanceAssets gs.activeEvent gs.sentiment rnd 0 gs.assets
  { gs with assets := assets1, players := gs.players.map (recomputePlayer assets1) }

/-- The structured error outcomes of the handlers (src/api/index.py returns
these as `jsonify({"error": ...}), 400/404`). -/
inductive ApiError where
  | nameRequired
  | invalidRequest
  | insufficientFunds
  | insufficientHoldings
  | playerNotFound
  | powerUpUnavailable
  | notReady
deriving DecidableEq, Repr

/-- Lookup of a player by id, as `next((p for p in players if p["id"] == player_id), None)`. -/
def findPlayer (pid : String) (gs : GameState) : Option Player :=
  gs.players.find? (fun p => p.id == pid)

/-- Lookup of an asset by id. -/
def findAsset (aid : String) (gs : GameState) : Option Asset :=
  gs.assets.find? (fun a => a.id == aid)

/-- The quantity a player holds of an asset (0 when there is no holding). -/
def heldQty (p : Player) (aid : String) : ℚ :=
  match p.holdings.find? (fun h => h.assetId == aid) with
  | some h => h.quantity
  | none => 0

/-- The recorded volume-weighted average buy price of a holding (0 when absent). -/
def heldAvg (p : Player) (aid : String) : ℚ :=
  match p.holdings.find? (fun h => h.assetId == aid) with
  | some h => h.avgBuyPrice
  | none => 0

/-- join_game (lines 261-290), restricted to one session: Python's
`if not name` rejects the empty string; an existing player of that name is
returned as-is; otherwise a fresh player is appended with id
`player-{len(players)}-{int(time.time())}`. -/
def join_game (nm : String) (now : ℚ) (gs : GameState) : Except ApiError (String × GameState) :=
  if nm = "" then .error .nameRequired
  else
    match gs.players.find? (fun p => p.name == nm) with
    | some p => .ok (p.id, { gs with lastUpdate := now })
    | none =>
      let pid := "player-" ++ toString gs.players.length ++ "-" ++ toString (pyTrunc now)
      .ok (pid, { gs with players := gs.players ++ [create_player pid nm], lastUpdate := now })

/-- Python truthiness of `game_state["roundStartTime"]`: a `None` or a 0.0
timestamp is falsy. -/
def truthyTime : Option ℚ → Bool
  | none => false
  | some t => t != 0

/-- The UNLOCKED portion of get_state's auto-update (lines 301-307): compute
`elapsed` and `time_remaining`, store `timeRemaining`, and run update_prices
when `time_remaining < 30`.  The source executes all of this without holding
`game_locks[game_id]`. -/
def tickRead (now : ℚ) (rnd : ℕ → ℚ) (gs : GameState) : ℤ × GameState :=
  let elapsed := now - gs.roundStartTime.getD 0
  let tr := max 0 (35 - pyTrunc elapsed)
  let gs1 := { gs with timeRemaining := tr }
  (tr, if tr < 30 then update_prices rnd gs1 else gs1)

/-- The LOCKED portion of get_state's auto-update (lines 311-318): executed
under `with game_locks[game_id]` once the caller's local `time_remaining`
reached 0: advance the round, or finish the match on the last round. -/
def tickWrite (now : ℚ) (gs : GameState) : GameState :=
  if gs.currentRound < gs.maxRounds then
    { gs with currentRound := gs.currentRound + 1, roundStartTime := some now,
              timeRemaining := 35 }
  else
    { gs with phase := "FINISHED", roundStartTime := none }

/-- get_state (lines 293-320) as executed by a single uninterrupted caller:
the unlocked read-and-price-update followed, when the locally computed
remaining time is ≤ 0, by the locked round-advance write.  Both `time.time()`
calls of the handler are identified with `now`. -/
def get_state (now : ℚ) (rnd : ℕ → ℚ) (gs : GameState) : GameState :=
  if gs.phase = "PLAYING" ∧ truthyTime gs.roundStartTime then
    let r := tickRead now rnd gs
    if r.1 ≤ 0 then tickWrite now r.2 else r.2
  else gs

/-- The remaining time the spec prescribes for a poll at `now` in a round
started at `t0`: max(0, 35 − floor(now − t0)). -/
def specRemaining (now t0 : ℚ) : ℤ :=
  max 0 (35 - ⌊now - t0⌋)

/-- start_game (lines 323-344); `scen` is the id of the `random.choice`
scenario pick. -/
def start_game (scen : String) (now : ℚ) (gs : GameState) : GameState :=
  if gs.phase = "PRE_MATCH" then
    { gs with phase := "PLAYING", currentRound := 1, roundStartTime := some now,
              timeRemaining := 35, activeScenarioId := some scen, lastUpdate := now }
  else gs

/-- select_avatar (lines 347-363): sets the avatar when the player exists,
silently no-ops otherwise. -/
def select_avatar (pid aid : String) (now : ℚ) (gs : GameState) : GameState :=
  match gs.players.find? (fun p => p.id == pid) with
  | some _ =>
    { gs with players := replaceFirstBy (fun p => p.id == pid)
                (fun p => { p with avatarId := some aid }) gs.players,
              lastUpdate := now }
  | none => gs

/-- select_strategy (lines 366-382). -/
def select_strategy (pid sid : String) (now : ℚ) (gs : GameState) : GameState :=
  match gs.players.find? (fun p => p.id == pid) with
  | some _ =>
    { gs with players := replaceFirstBy (fun p => p.id == pid)
                (fun p => { p with strategyId := some sid }) gs.players,
              lastUpdate := now }
  | none => gs

/-- The transaction record appended by buy_asset (lines 419-429). -/
def buyTx (gs : GameState) (a : Asset) (aid : String) (amount : ℚ) : TransactionRecord :=
  { round := gs.currentRound, type := "BUY", assetId := aid, assetType := a.type,
    amount := amount, price := a.currentPrice, totalValue := amount * a.currentPrice,
    eventActive := gs.activeEvent.map MarketEvent.id,
    sentimentAtTime := gs.sentiment a.type }

/-- The successful-path player update of buy_asset (lines 403-429): debit the
cost, update the first matching holding with the volume-weighted average (or
append a fresh holding at the current price), and append the transaction. -/
def buyPlayer (gs : GameState) (a : Asset) (aid : String) (amount : ℚ) (p : Player) : Player :=
  let cost := amount * a.currentPrice
  let p1 := { p with cash := p.cash - cost }
  let vwap : Holding → Holding := fun h =>
    { h with quantity := h.quantity + amount,
             avgBuyPrice := (h.quantity * h.avgBuyPrice + cost) / (h.quantity + amount) }
  let p2 :=
    match p1.holdings.find? (fun h => h.assetId == aid) with
    | some _ =>
      { p1 with holdings := replaceFirstBy (fun h => h.assetId == aid) vwap p1.holdings }
    | none =>
      { p1 with holdings := p1.holdings ++
          [({ assetId := aid, quantity := amount, avgBuyPrice := a.currentPrice } : Holding)] }
  { p2 with transactionLog := p2.transactionLog ++ [buyTx gs a aid amount] }

/-- The whole-session state produced by a successful buy: the looked-up
player object is mutated in place, `lastUpdate` refreshed. -/
def buyState (gs : GameState) (a : Asset) (pid aid : String) (amount now : ℚ)
    (p : Player) : GameState :=
  { gs with
      players := replaceFirstBy (fun q => q.id == pid) (fun _ => buyPlayer gs a aid amount p)
        gs.players
      lastUpdate := now }

/-- buy_asset (lines 385-434): invalid when the player or asset is unknown or
the phase is not PLAYING; insufficient funds unless `cost ≤ cash`
(`player["cash"] >= cost` in the source). -/
def buy_asset (pid aid : String) (amount now : ℚ) (gs : GameState) : Except ApiError GameState :=
  match gs.players.find? (fun p => p.id == pid), gs.assets.find? (fun a => a.id == aid) with
  | some p, some a =>
    if gs.phase = "PLAYING" then
      if amount * a.currentPrice ≤ p.cash then .ok (buyState gs a pid aid amount now p)
      else .error .insufficientFunds
    else .error .invalidRequest
  | _, _ => .error .invalidRequest

/-- The transaction record appended by sell_asset (lines 464-474). -/
def sellTx (gs : GameState) (a : Asset) (aid : String) (amount : ℚ) : TransactionRecord :=
  { round := gs.currentRound, type := "SELL", assetId := aid, assetType := a.type,
    amount := amount, price := a.currentPrice, totalValue := amount * a.currentPrice,
    eventActive := gs.activeEvent.map MarketEvent.id,
    sentimentAtTime := gs.sentiment a.type }

/-- The successful-path player update of sell_asset (lines 457-474): credit
the revenue, decrement the first matching holding, drop the asset's holdings
entirely when the decremented quantity is ≤ 0, append the transaction.
`h` is the holding the handler looked up (so `h.quantity - amount` is the
quantity the source tests against 0 after the in-place decrement). -/
def sellPlayer (gs : GameState) (a : Asset) (aid : String) (amount : ℚ) (p : Player)
    (h : Holding) : Player :=
  let revenue := amount * a.currentPrice
  let p1 := { p with cash := p.cash + revenue }
  let holdings1 := replaceFirstBy (fun hh => hh.assetId == aid)
      (fun hh => { hh with quantity := hh.quantity - amount }) p1.holdings
  let holdings2 :=
    if h.quantity - amount ≤ 0 then holdings1.filter (fun hh => hh.assetId != aid)
    else holdings1
  { p1 with holdings := holdings2,
            transactionLog := p1.transactionLog ++ [sellTx gs a aid amount] }

/-- The whole-session state produced by a successful sell. -/
def sellState (gs : GameState) (a : Asset) (pid aid : String) (amount now : ℚ)
    (p : Player) (h : Holding) : GameState :=
  { gs with
      players := replaceFirstBy (fun q => q.id == pid) (fun _ => sellPlayer gs a aid amount p h)
        gs.players
      lastUpdate := now }

/-- sell_asset (lines 437-479): invalid when the player or asset is unknown
or the phase is not PLAYING; insufficient holdings when there is no holding
for the asset or its quantity is < amount. -/
def sell_asset (pid aid : String) (amount now : ℚ) (gs : GameState) : Except ApiError GameState :=
  match gs.players.find? (fun p => p.id == pid), gs.assets.find? (fun a => a.id == aid) with
  | some p, some a =>
    if gs.phase = "PLAYING" then
      match p.holdings.find? (fun h => h.assetId == aid) with
      | some h =>
        if amount ≤ h.quantity then .ok (sellState gs a pid aid amount now p h)
        else .error .insufficientHoldings
      | none => .error .insufficientHoldings
    else .error .invalidRequest
  | _, _ => .error .invalidRequest

/-- use_powerup (lines 482-511): 404 when the player is unknown; unavailable
when the power-up is missing or exhausted; otherwise decrement `usesLeft` and
apply the fixed effect of the two known ids (anything else is a bare
decrement). -/
def use_powerup (pid puid : String) (now : ℚ) (gs : GameState) : Except ApiError GameState :=
  match gs.players.find? (fun p => p.id == pid) with
  | none => .error .playerNotFound
  | some p =>
    match p.powerUps.find? (fun u => u.id == puid) with
    | some u =>
      if u.usesLeft ≤ 0 then .error .powerUpUnavailable
      else
        let dec : PowerUp → PowerUp := fun v => { v with usesLeft := v.usesLeft - 1 }
        let p1 := { p with powerUps := replaceFirstBy (fun v => v.id == puid) dec p.powerUps }
        let p2 :=
          if puid = "future-glimpse" then { p1 with riskScore := max 0 (p1.riskScore - 20) }
          else if puid = "market-freeze" then { p1 with cash := p1.cash + 1000 }
          else p1
        .ok { gs with players := replaceFirstBy (fun q => q.id == pid) (fun _ => p2) gs.players,
                      lastUpdate := now }
    | none => .error .powerUpUnavailable

/-- reset_game (lines 514-523): replace the session with a fresh one. -/
def reset_game (now : ℚ) (gs : GameState) : GameState :=
  create_new_game gs.id now

/-- One row of the results payload (only the computed fields; the source also
attaches fixed literal strings that carry no logic). -/
structure ResultRecord where
  playerId : String
  playerName : String
  finalValue : ℚ
  riskScore : ℤ
  roi : ℚ
  riskAdjustedScore : ℚ
  rank : ℕ
deriving DecidableEq, Repr

/-- Python `len(set(h["assetId"] for h in holdings))`. -/
def distinctAssetCount (p : Player) : ℕ :=
  (p.holdings.map Holding.assetId).dedup.length

/-- One player's result entry before ranking (lines 536-564): the one-time
+5% DIVERSIFIER bonus, roi against the 10000 starting cash, and the
risk-adjusted score. -/
def resultEntry (p : Player) : ResultRecord :=
  let fv0 := p.totalValue
  let fv := if p.strategyId = some "DIVERSIFIER" ∧ 4 ≤ distinctAssetCount p
    then fv0 + fv0 * (5/100) else fv0
  let roi := (fv - 10000) / 10000 * 100
  { playerId := p.id, playerName := p.name, finalValue := fv, riskScore := p.riskScore,
    roi := roi, riskAdjustedScore := roi - (p.riskScore : ℚ) * (5/10), rank := 0 }

/-- The comparator realizing Python's stable `results.sort(key=..., reverse=True)`:
keep `a` before `b` exactly when `a`'s key is ≥ `b`'s key, so equal keys stay
in their original (join) order. -/
def resultGE (a b : ResultRecord) : Bool :=
  decide (b.riskAdjustedScore ≤ a.riskAdjustedScore)

/-- The rank-assignment loop (lines 568-569): rank = position + 1. -/
def assignRanks : ℕ → List ResultRecord → List ResultRecord
  | _, [] => []
  | i, r :: rest => { r with rank := i + 1 } :: assignRanks (i + 1) rest

/-- get_results (lines 526-571). -/
def get_results (gs : GameState) : Except ApiError (List ResultRecord) :=
  if gs.phase ≠ "FINISHED" then .error .notReady
  else
    let recs := gs.players.map resultEntry
    .ok (assignRanks 0 (recs.mergeSort resultGE))

/-- The unlocked portion of a full get_state call, including the handler's
entry test `phase == "PLAYING" and roundStartTime` (line 300): `none` when
the handler performs no auto-update at all. -/
def pollUnlocked (now : ℚ) (rnd : ℕ → ℚ) (gs : GameState) : Option (ℤ × GameState) :=
  if gs.phase = "PLAYING" ∧ truthyTime gs.roundStartTime then some (tickRead now rnd gs)
  else none

/-- Two concurrent get_state calls with both unlocked reads scheduled before
either locked write (the interleaving the session lock is supposed to rule
out, per the spec).  Each caller decides from its own locally computed
`time_remaining`; each locked write runs on the then-current state. -/
def interleavedDoublePoll (now : ℚ) (rnd : ℕ → ℚ) (gs0 : GameState) : GameState :=
  match pollUnlocked now rnd gs0 with
  | none => gs0
  | some (trA, gs1) =>
    match pollUnlocked now rnd gs1 with
    | none => if trA ≤ 0 then tickWrite now gs1 else gs1
    | some (trB, gs2) =>
      let gs3 := if trA ≤ 0 then tickWrite now gs2 else gs2
      if trB ≤ 0 then tickWrite now gs3 else gs3

/-- One public operation of the core with all its external inputs (caller
arguments, the wall-clock reading, the random draws).  `results` is read-only
and so contributes nothing to reachability. -/
inductive Op where
  | opJoin (nm : String) (now : ℚ)
  | opGetState (now : ℚ) (rnd : ℕ → ℚ)
  | opStart (scen : String) (now : ℚ)
  | opSelectAvatar (pid aid : String) (now : ℚ)
  | opSelectStrategy (pid sid : String) (now : ℚ)
  | opBuy (pid aid : String) (amount now : ℚ)
  | opSell (pid aid : String) (amount now : ℚ)
  | opPowerUp (pid puid : String) (now : ℚ)
  | opReset (now : ℚ)

/-- The state after one public operation (failing handlers mutate nothing). -/
def applyOp (o : Op) (gs : GameState) : GameState :=
  match o with
  | .opJoin nm now =>
    match join_game nm now gs with
    | .ok r => r.2
    | .error _ => gs
  | .opGetState now rnd => get_state now rnd gs
  | .opStart scen now => start_game scen now gs
  | .opSelectAvatar pid aid now => select_avatar pid aid now gs
  | .opSelectStrategy pid sid now => select_strategy pid sid now gs
  | .opBuy pid aid amount now =>
    match buy_asset pid aid amount now gs with
    | .ok gs1 => gs1
    | .error _ => gs
  | .opSell pid aid amount now =>
    match sell_asset pid aid amount now gs with
    | .ok gs1 => gs1
    | .error _ => gs
  | .opPowerUp pid puid now =>
    match use_powerup pid puid now gs with
    | .ok gs1 => gs1
    | .error _ => gs
  | .opReset now => reset_game now gs

/-- The session states reachable through the public operations, starting from
the freshly created session of create_new_game. -/
inductive Reachable : GameState → Prop where
  | init (gid : String) (now : ℚ) : Reachable (create_new_game gid now)
  | step (o : Op) (gs : GameState) : Reachable gs → Reachable (applyOp o gs)

/-- No market event is active, all sentiment is level 0, and every recorded
transaction snapshot reflects that. -/
def cleanSession (gs : GameState) : Prop :=
  gs.activeEvent = none ∧ (∀ t, gs.sentiment t = 0)
  ∧ ∀ p ∈ gs.players, ∀ tx ∈ p.transactionLog,
      tx.eventActive = none ∧ tx.sentimentAtTime = 0

/-! Concrete fixtures used by the witnesses. -/

def aliceP : Player := create_player "p1" "Alice"

def aapl : Asset :=
  { id := "AAPL", name := "Apple Inc.", type := "STOCK", baseVolatility := 4/5,
    trendBias := "UP", currentPrice := 150, history := [150] }

/-- A mid-match session with one cash-only player, as produced by a join at
time 0 followed by a start at time 100. -/
def playingState : GameState :=
  { create_new_game "default" 0 with
      phase := "PLAYING"
      currentRound := 1
      roundStartTime := some 100
      timeRemaining := 35
      players := [aliceP] }

def bobP : Player :=
  { create_player "p2" "Bob" with
      holdings := [{ assetId := "AAPL", quantity := 5, avgBuyPrice := 140 }] }

/-- A result record with its rank reset, for stating rank-independent facts
about the sorted results list. -/
def stripRank (r : ResultRecord) : ResultRecord := { r with rank := 0 }

/-- A finished two-player session. -/
def finishedState : GameState :=
  { create_new_game "default" 0 with
      phase := "FINISHED"
      players := [aliceP, bobP] }

/-- A mid-match session whose single player already holds 5 AAPL. -/
def holdingState : GameState :=
  { create_new_game "default" 0 with
      phase := "PLAYING"
      currentRound := 2
      roundStartTime := some 100
      timeRemaining := 35
      players := [bobP] }

/-- The two-asset catalog of the C5 counterexample: a zero-volatility asset
and a high-volatility asset whose price has drifted below zero (the spec
states prices are never clamped at 0). -/
def riskAssets : List Asset :=
  [ { id := "X", name := "X", type := "STOCK", baseVolatility := 0,
      trendBias := "UP", currentPrice := 1000, history := [1000] },
    { id := "Y", name := "Y", type := "CRYPTO", baseVolatility := 5/2,
      trendBias := "SIDEWAYS", currentPrice := -10, history := [-10] } ]

/-- A player holding one unit of each counterexample asset. -/
def riskPlayer : Player :=
  { create_player "p" "P" with
      holdings := [{ assetId := "X", quantity := 1, avgBuyPrice := 1000 },
                   { assetId := "Y", quantity := 1, avgBuyPrice := 10 }] }

/-! Helper lemmas about pyTrunc, pyRound and the find-and-mutate-in-place
pattern. -/

theorem Rat.floor_eq_intFloor (q : ℚ) : q.floor = ⌊q⌋ := by
  rw [Rat.floor_def, Rat.floor_def']

theorem pyTrunc_eq_floor {q : ℚ} (h : 0 ≤ q) : pyTrunc q = ⌊q⌋ := by
  rw [pyTrunc, if_pos h, Rat.floor_eq_intFloor]

theorem replaceFirstBy_of_find?_eq_none {pred : α → Bool} {f : α → α} {l : List α}
    (h : l.find? pred = none) : replaceFirstBy pred f l = l := by
  induction l with
  | nil => rfl
  | cons y ys ih =>
    rw [List.find?_eq_none] at h
    have hy : pred y = false := by simpa using h y (List.mem_cons_self _ _)
    have hrest : ys.find? pred = none := by
      rw [List.find?_eq_none]
      exact fun x hx => h x (List.mem_cons_of_mem _ hx)
    simp only [replaceFirstBy, hy, Bool.false_eq_true, if_false, ih hrest]

theorem find?_replaceFirstBy {pred : α → Bool} {f : α → α} :
    ∀ {l : List α} {x : α}, l.find? pred = some x → pred (f x) = true →
      (replaceFirstBy pred f l).find? pred = some (f x)
  | y :: ys, x, h, hf => by
    cases hy : pred y with
    | true =>
      rw [List.find?_cons_of_pos _ hy] at h
      cases h
      simp only [replaceFirstBy, hy, if_true]
      exact List.find?_cons_of_pos _ hf
    | false =>
      rw [List.find?_cons_of_neg _ (by simp [hy])] at h
      simp only [replaceFirstBy, hy, Bool.false_eq_true, if_false]
      rw [List.find?_cons_of_neg _ (by simp [hy])]
      exact find?_replaceFirstBy h hf

theorem mem_replaceFirstBy {pred : α → Bool} {f : α → α} :
    ∀ {l : List α} {y : α}, y ∈ replaceFirstBy pred f l → y ∈ l ∨ ∃ x, x ∈ l ∧ y = f x
  | z :: zs, y, h => by
    by_cases hz : pred z
    · simp only [replaceFirstBy, hz, if_pos] at h
      rcases List.mem_cons.1 h with h | h
      · exact Or.inr ⟨z, List.mem_cons_self _ _, h⟩
      · exact Or.inl (List.mem_cons_of_mem _ h)
    · simp only [replaceFirstBy, hz, Bool.false_eq_true, if_neg] at h
      rcases List.mem_cons.1 h with h | h
      · exact Or.inl (h ▸ List.mem_cons_self _ _)
      · rcases mem_replaceFirstBy h with h | ⟨x, hx, hy⟩
        · exact Or.inl (List.mem_cons_of_mem _ h)
        · exact Or.inr ⟨x, List.mem_cons_of_mem _ hx, hy⟩

/-! Unfolding lemmas for buy_asset and sell_asset. -/

theorem buyPlayer_id (gs : GameState) (a : Asset) (aid : String) (amount : ℚ) (p : Player) :
    (buyPlayer gs a aid amount p).id = p.id := by
  cases hf : p.holdings.find? (fun h => h.assetId == aid) <;>
    simp only [buyPlayer, hf]

theorem buyPlayer_cash (gs : GameState) (a : Asset) (aid : String) (amount : ℚ) (p : Player) :
    (buyPlayer gs a aid amount p).cash = p.cash - amount * a.currentPrice := by
  cases hf : p.holdings.find? (fun h => h.assetId == aid) <;>
    simp only [buyPlayer, hf]

theorem buyPlayer_log (gs : GameState) (a : Asset) (aid : String) (amount : ℚ) (p : Player) :
    (buyPlayer gs a aid amount p).transactionLog =
      p.transactionLog ++ [buyTx gs a aid amount] := by
  cases hf : p.holdings.find? (fun h => h.assetId == aid) <;>
    simp only [buyPlayer, hf]

theorem buyPlayer_strategyId (gs : GameState) (a : Asset) (aid : String) (amount : ℚ)
    (p : Player) : (buyPlayer gs a aid amount p).strategyId = p.strategyId := by
  cases hf : p.holdings.find? (fun h => h.assetId == aid) <;>
    simp only [buyPlayer, hf]

theorem buyPlayer_heldQty (gs : GameState) (a : Asset) (aid : String) (amount : ℚ) (p : Player) :
    heldQty (buyPlayer gs a aid amount p) aid = heldQty p aid + amount := by
  cases hf : p.holdings.find? (fun h => h.assetId == aid) with
  | some h =>
    have hp : (h.assetId == aid) = true := by simpa using List.find?_some hf
    simp only [heldQty, buyPlayer, hf]
    rw [find?_replaceFirstBy hf (by simpa using hp)]
  | none =>
    simp only [heldQty, buyPlayer, hf, List.find?_append, Option.none_or]
    rw [List.find?_cons_of_pos _ (by simp)]
    simp

theorem buyPlayer_heldAvg (gs : GameState) (a : Asset) (aid : String) (amount : ℚ) (p : Player)
    (hne : heldQty p aid + amount ≠ 0) :
    heldAvg (buyPlayer gs a aid amount p) aid =
      (heldQty p aid * heldAvg p aid + amount * a.currentPrice) / (heldQty p aid + amount) := by
  cases hf : p.holdings.find? (fun h => h.assetId == aid) with
  | some h =>
    have hp : (h.assetId == aid) = true := by simpa using List.find?_some hf
    simp only [heldAvg, heldQty, buyPlayer, hf]
    rw [find?_replaceFirstBy hf (by simpa using hp)]
  | none =>
    simp only [heldQty, hf] at hne
    simp only [heldAvg, heldQty, buyPlayer, hf, List.find?_append, Option.none_or]
    rw [List.find?_cons_of_pos _ (by simp)]
    simp only [zero_add] at hne ⊢
    rw [zero_mul, zero_add, mul_div_cancel_left₀ _ hne]

theorem buy_asset_ok {gs : GameState} {pid aid : String} {amount now : ℚ} {p : Player} {a : Asset}
    (hp : findPlayer pid gs = some p) (ha : findAsset aid gs = some a)
    (hph : gs.phase = "PLAYING") (hc : amount * a.currentPrice ≤ p.cash) :
    buy_asset pid aid amount now gs = .ok (buyState gs a pid aid amount now p) := by
  unfold findPlayer at hp
  unfold findAsset at ha
  unfold buy_asset
  rw [hp, ha]
  simp [hph, hc]

theorem buy_asset_invalid {gs : GameState} {pid aid : String} (amount now : ℚ)
    (h : findPlayer pid gs = none ∨ findAsset aid gs = none ∨ gs.phase ≠ "PLAYING") :
    buy_asset pid aid amount now gs = .error .invalidRequest := by
  unfold findPlayer findAsset at h
  unfold buy_asset
  rcases h with h | h | h
  · rw [h]
  · rw [h]; cases gs.players.find? (fun p => p.id == pid) <;> rfl
  · cases hp : gs.players.find? (fun p => p.id == pid) with
    | none => rfl
    | some p =>
      cases ha : gs.assets.find? (fun a => a.id == aid) with
      | none => rfl
      | some a => simp [h]

theorem buy_asset_insufficient {gs : GameState} {pid aid : String} {amount now : ℚ}
    {p : Player} {a : Asset}
    (hp : findPlayer pid gs = some p) (ha : findAsset aid gs = some a)
    (hph : gs.phase = "PLAYING") (hc : p.cash < amount * a.currentPrice) :
    buy_asset pid aid amount now gs = .error .insufficientFunds := by
  unfold findPlayer at hp
  unfold findAsset at ha
  unfold buy_asset
  rw [hp, ha]
  simp [hph, not_le.2 hc]

theorem findPlayer_buy_ok {gs : GameState} {pid aid : String} {amount now : ℚ}
    {p : Player} {a : Asset}
    (hp : findPlayer pid gs = some p) (ha : findAsset aid gs = some a)
    (hph : gs.phase = "PLAYING") (hc : amount * a.currentPrice ≤ p.cash) :
    ∃ gs', buy_asset pid aid amount now gs = .ok gs'
      ∧ findPlayer pid gs' = some (buyPlayer gs a aid amount p)
      ∧ gs'.assets = gs.assets ∧ gs'.phase = gs.phase
      ∧ gs'.currentRound = gs.currentRound
      ∧ gs'.activeEvent = gs.activeEvent ∧ gs'.sentiment = gs.sentiment := by
  refine ⟨_, buy_asset_ok hp ha hph hc, ?_, rfl, rfl, rfl, rfl, rfl⟩
  unfold findPlayer at hp ⊢
  have hpred : ((buyPlayer gs a aid amount p).id == pid) = true := by
    rw [buyPlayer_id]
    simpa using List.find?_some hp
  exact find?_replaceFirstBy hp hpred

theorem buyPlayer_holding (gs : GameState) (a : Asset) (aid : String) (amount : ℚ)
    (p : Player) :
    ∃ h', (buyPlayer gs a aid amount p).holdings.find? (fun hh => hh.assetId == aid) = some h'
      ∧ h'.quantity = heldQty p aid + amount := by
  cases hf : p.holdings.find? (fun h => h.assetId == aid) with
  | some h =>
    have hp : (h.assetId == aid) = true := by simpa using List.find?_some hf
    refine ⟨{ h with
        quantity := h.quantity + amount
        avgBuyPrice := (h.quantity * h.avgBuyPrice + amount * a.currentPrice)
          / (h.quantity + amount) }, ?_, ?_⟩
    · simp only [buyPlayer, hf]
      exact find?_replaceFirstBy hf (by simpa using hp)
    · simp [heldQty, hf]
  | none =>
    refine ⟨{ assetId := aid, quantity := amount, avgBuyPrice := a.currentPrice }, ?_, ?_⟩
    · simp only [buyPlayer, hf, List.find?_append, Option.none_or]
      exact List.find?_cons_of_pos _ (by simp)
    · simp [heldQty, hf]

theorem sellPlayer_id (gs : GameState) (a : Asset) (aid : String) (amount : ℚ) (p : Player)
    (h : Holding) : (sellPlayer gs a aid amount p h).id = p.id := rfl

theorem sellPlayer_cash (gs : GameState) (a : Asset) (aid : String) (amount : ℚ) (p : Player)
    (h : Holding) : (sellPlayer gs a aid amount p h).cash = p.cash + amount * a.currentPrice := rfl

theorem sellPlayer_log (gs : GameState) (a : Asset) (aid : String) (amount : ℚ) (p : Player)
    (h : Holding) : (sellPlayer gs a aid amount p h).transactionLog =
      p.transactionLog ++ [sellTx gs a aid amount] := rfl

theorem sellPlayer_removes (gs : GameState) (a : Asset) (aid : String) (amount : ℚ) (p : Player)
    (h : Holding) (hrm : h.quantity - amount ≤ 0) :
    (sellPlayer gs a aid amount p h).holdings.find? (fun hh => hh.assetId == aid) = none := by
  simp only [sellPlayer, if_pos hrm]
  rw [List.find?_eq_none]
  intro x hx
  have := (List.mem_filter.1 hx).2
  simp only [bne_iff_ne, ne_eq] at this
  simp [this]

theorem sellPlayer_keeps (gs : GameState) (a : Asset) (aid : String) (amount : ℚ) (p : Player)
    (h : Holding) (hh : p.holdings.find? (fun hh => hh.assetId == aid) = some h)
    (hkeep : ¬ h.quantity - amount ≤ 0) :
    (sellPlayer gs a aid amount p h).holdings.find? (fun hh => hh.assetId == aid) =
      some { h with quantity := h.quantity - amount } := by
  have hp : (h.assetId == aid) = true := by simpa using List.find?_some hh
  simp only [sellPlayer, if_neg hkeep]
  exact find?_replaceFirstBy hh (by simpa using hp)

theorem sell_asset_ok {gs : GameState} {pid aid : String} {amount now : ℚ} {p : Player}
    {a : Asset} {h : Holding}
    (hp : findPlayer pid gs = some p) (ha : findAsset aid gs = some a)
    (hph : gs.phase = "PLAYING")
    (hh : p.holdings.find? (fun hh => hh.assetId == aid) = some h)
    (hq : amount ≤ h.quantity) :
    sell_asset pid aid amount now gs = .ok (sellState gs a pid aid amount now p h) := by
  unfold findPlayer at hp
  unfold findAsset at ha
  unfold sell_asset
  rw [hp, ha]
  simp [hph, hh, hq]

theorem sell_asset_invalid {gs : GameState} {pid aid : String} (amount now : ℚ)
    (h : findPlayer pid gs = none ∨ findAsset aid gs = none ∨ gs.phase ≠ "PLAYING") :
    sell_asset pid aid amount now gs = .error .invalidRequest := by
  unfold findPlayer findAsset at h
  unfold sell_asset
  rcases h with h | h | h
  · rw [h]
  · rw [h]; cases gs.players.find? (fun p => p.id == pid) <;> rfl
  · cases hp : gs.players.find? (fun p => p.id == pid) with
    | none => rfl
    | some p =>
      cases ha : gs.assets.find? (fun a => a.id == aid) with
      | none => rfl
      | some a => simp [h]

theorem sell_asset_insufficient {gs : GameState} {pid aid : String} {amount now : ℚ}
    {p : Player} {a : Asset}
    (hp : findPlayer pid gs = some p) (ha : findAsset aid gs = some a)
    (hph : gs.phase = "PLAYING")
    (hq : heldQty p aid < amount) :
    sell_asset pid aid amount now gs = .error .insufficientHoldings := by
  unfold findPlayer at hp
  unfold findAsset at ha
  unfold sell_asset
  rw [hp, ha]
  unfold heldQty at hq
  cases hh : p.holdings.find? (fun hh => hh.assetId == aid) with
  | none => simp [hph, hh]
  | some h =>
    rw [hh] at hq
    simp only at hq
    simp [hph, hh, not_le.2 hq]

theorem findPlayer_sell_ok {gs : GameState} {pid aid : String} {amount now : ℚ}
    {p : Player} {a : Asset} {h : Holding}
    (hp : findPlayer pid gs = some p) (ha : findAsset aid gs = some a)
    (hph : gs.phase = "PLAYING")
    (hh : p.holdings.find? (fun hh => hh.assetId == aid) = some h)
    (hq : amount ≤ h.quantity) :
    ∃ gs', sell_asset pid aid amount now gs = .ok gs'
      ∧ findPlayer pid gs' = some (sellPlayer gs a aid amount p h)
      ∧ gs'.assets = gs.assets ∧ gs'.phase = gs.phase
      ∧ gs'.currentRound = gs.currentRound
      ∧ gs'.activeEvent = gs.activeEvent ∧ gs'.sentiment = gs.sentiment := by
  refine ⟨_, sell_asset_ok hp ha hph hh hq, ?_, rfl, rfl, rfl, rfl, rfl⟩
  unfold findPlayer at hp ⊢
  have hpred : ((sellPlayer gs a aid amount p h).id == pid) = true := by
    rw [sellPlayer_id]
    simpa using List.find?_some hp
  exact find?_replaceFirstBy hp hpred

/-! Claim C3. -/

/-- C3: buy_asset fails with InvalidRequest when the player or asset is
unknown or the phase is not PLAYING, fails with InsufficientFunds when
amount×currentPrice exceeds the cash balance (in the source every failure
returns before any mutation, which the Except embedding renders by producing
no state), and on success debits amount×currentPrice from cash, updates or
creates the holding at the volume-weighted average price
(oldQty×oldAvg + amount×price)/(oldQty+amount), and appends exactly one
BUY TransactionRecord. -/
theorem c3_buy_contract (gs : GameState) (pid aid : String) (amount now : ℚ) :
    ((findPlayer pid gs = none ∨ findAsset aid gs = none ∨ gs.phase ≠ "PLAYING") →
      buy_asset pid aid amount now gs = Except.error ApiError.invalidRequest)
    ∧ (∀ p a, findPlayer pid gs = some p → findAsset aid gs = some a →
        gs.phase = "PLAYING" →
        (p.cash < amount * a.currentPrice →
          buy_asset pid aid amount now gs = Except.error ApiError.insufficientFunds)
        ∧ (amount * a.currentPrice ≤ p.cash →
          ∃ gs' p', buy_asset pid aid amount now gs = Except.ok gs'
            ∧ findPlayer pid gs' = some p'
            ∧ p'.cash = p.cash - amount * a.currentPrice
            ∧ heldQty p' aid = heldQty p aid + amount
            ∧ (heldQty p aid + amount ≠ 0 →
                heldAvg p' aid =
                  (heldQty p aid * heldAvg p aid + amount * a.currentPrice)
                    / (heldQty p aid + amount))
            ∧ p'.transactionLog = p.transactionLog ++ [buyTx gs a aid amount])) := by
  refine ⟨buy_asset_invalid amount now, fun p a hp ha hph => ⟨?_, ?_⟩⟩
  · exact fun hc => buy_asset_insufficient hp ha hph hc
  · intro hc
    obtain ⟨gs', hok, hfind, -, -, -, -, -⟩ := findPlayer_buy_ok hp ha hph hc
    exact ⟨gs', buyPlayer gs a aid amount p, hok, hfind,
      buyPlayer_cash gs a aid amount p, buyPlayer_heldQty gs a aid amount p,
      fun hne => buyPlayer_heldAvg gs a aid amount p hne,
      buyPlayer_log gs a aid amount p⟩

/-- Witness for C3 on a concrete session: Alice buys 2 AAPL at price 150. -/
theorem c3_buy_contract_witness :
    (findPlayer "p1" playingState = some aliceP
      ∧ findAsset "AAPL" playingState = some aapl
      ∧ playingState.phase = "PLAYING"
      ∧ (2 : ℚ) * aapl.currentPrice ≤ aliceP.cash)
    ∧ (∃ gs' p', buy_asset "p1" "AAPL" 2 105 playingState = Except.ok gs'
        ∧ findPlayer "p1" gs' = some p'
        ∧ p'.cash = aliceP.cash - 2 * aapl.currentPrice
        ∧ heldQty p' "AAPL" = heldQty aliceP "AAPL" + 2
        ∧ (heldQty aliceP "AAPL" + 2 ≠ 0 →
            heldAvg p' "AAPL" =
              (heldQty aliceP "AAPL" * heldAvg aliceP "AAPL" + 2 * aapl.currentPrice)
                / (heldQty aliceP "AAPL" + 2))
        ∧ p'.transactionLog = aliceP.transactionLog ++ [buyTx playingState aapl "AAPL" 2]) :=
  ⟨⟨rfl, rfl, rfl, by norm_num [aapl, aliceP, create_player]⟩,
    ((c3_buy_contract playingState "p1" "AAPL" 2 105).2 aliceP aapl rfl rfl rfl).2
      (by norm_num [aapl, aliceP, create_player])⟩

/-! Claim C4. -/

/-- C4: sell_asset fails with InvalidRequest when the player or asset is
unknown or the phase is not PLAYING, fails with InsufficientHoldings when the
held quantity (0 when there is no holding) is below the requested amount (in
the source every failure returns before any mutation, which the Except
embedding renders by producing no state), and on success credits
amount×currentPrice to cash, reduces the holding's quantity, removes the
holding entirely when the quantity reaches 0, appends exactly one SELL
TransactionRecord, and never recomputes avgBuyPrice. -/
theorem c4_sell_contract (gs : GameState) (pid aid : String) (amount now : ℚ) :
    ((findPlayer pid gs = none ∨ findAsset aid gs = none ∨ gs.phase ≠ "PLAYING") →
      sell_asset pid aid amount now gs = Except.error ApiError.invalidRequest)
    ∧ (∀ p a, findPlayer pid gs = some p → findAsset aid gs = some a →
        gs.phase = "PLAYING" →
        (heldQty p aid < amount →
          sell_asset pid aid amount now gs = Except.error ApiError.insufficientHoldings)
        ∧ (∀ h, p.holdings.find? (fun hh => hh.assetId == aid) = some h →
            amount ≤ h.quantity →
            ∃ gs' p', sell_asset pid aid amount now gs = Except.ok gs'
              ∧ findPlayer pid gs' = some p'
              ∧ p'.cash = p.cash + amount * a.currentPrice
              ∧ (h.quantity = amount →
                  p'.holdings.find? (fun hh => hh.assetId == aid) = none)
              ∧ (amount < h.quantity →
                  heldQty p' aid = h.quantity - amount ∧ heldAvg p' aid = h.avgBuyPrice)
              ∧ p'.transactionLog = p.transactionLog ++ [sellTx gs a aid amount])) := by
  refine ⟨sell_asset_invalid amount now, fun p a hp ha hph => ⟨?_, ?_⟩⟩
  · exact fun hq => sell_asset_insufficient hp ha hph hq
  · intro h hh hq
    obtain ⟨gs', hok, hfind, -, -, -, -, -⟩ := findPlayer_sell_ok hp ha hph hh hq
    refine ⟨gs', sellPlayer gs a aid amount p h, hok, hfind,
      sellPlayer_cash gs a aid amount p h, ?_, ?_, sellPlayer_log gs a aid amount p h⟩
    · intro heq
      exact sellPlayer_removes gs a aid amount p h (by rw [heq, sub_self])
    · intro hlt
      have hkeep : ¬ h.quantity - amount ≤ 0 := by
        rw [not_le]
        exact sub_pos.2 hlt
      constructor
      · rw [heldQty, sellPlayer_keeps gs a aid amount p h hh hkeep]
      · rw [heldAvg, sellPlayer_keeps gs a aid amount p h hh hkeep]

/-- Witness for C4 on a concrete session: Bob sells 2 of his 5 AAPL. -/
theorem c4_sell_contract_witness :
    (findPlayer "p2" holdingState = some bobP
      ∧ findAsset "AAPL" holdingState = some aapl
      ∧ holdingState.phase = "PLAYING"
      ∧ bobP.holdings.find? (fun hh => hh.assetId == "AAPL") =
          some { assetId := "AAPL", quantity := 5, avgBuyPrice := 140 }
      ∧ (2 : ℚ) ≤ 5)
    ∧ (∃ gs' p', sell_asset "p2" "AAPL" 2 107 holdingState = Except.ok gs'
        ∧ findPlayer "p2" gs' = some p'
        ∧ p'.cash = bobP.cash + 2 * aapl.currentPrice
        ∧ ((5 : ℚ) = 2 → p'.holdings.find? (fun hh => hh.assetId == "AAPL") = none)
        ∧ ((2 : ℚ) < 5 → heldQty p' "AAPL" = 5 - 2 ∧ heldAvg p' "AAPL" = 140)
        ∧ p'.transactionLog = bobP.transactionLog ++ [sellTx holdingState aapl "AAPL" 2]) :=
  ⟨⟨rfl, rfl, rfl, rfl, by norm_num⟩,
    ((c4_sell_contract holdingState "p2" "AAPL" 2 107).2 bobP aapl rfl rfl rfl).2
      { assetId := "AAPL", quantity := 5, avgBuyPrice := 140 } rfl (by norm_num)⟩

/-! Claim C10. -/

/-- C10: buy_asset places no positivity requirement on the amount — for any
amount whatsoever (zero and negative values included) with
amount×currentPrice ≤ cash, the buy succeeds, the cash balance changes by
exactly −amount×currentPrice (so a negative amount increases cash), and the
resulting held quantity is the previous held quantity plus the amount, which
can therefore be zero or negative — violating the Holding quantity > 0
data-model invariant. -/
theorem c10_buy_no_positivity (gs : GameState) (pid aid : String) (amount now : ℚ)
    (p : Player) (a : Asset)
    (hp : findPlayer pid gs = some p) (ha : findAsset aid gs = some a)
    (hph : gs.phase = "PLAYING") (hc : amount * a.currentPrice ≤ p.cash) :
    ∃ gs' p', buy_asset pid aid amount now gs = Except.ok gs'
      ∧ findPlayer pid gs' = some p'
      ∧ p'.cash = p.cash - amount * a.currentPrice
      ∧ heldQty p' aid = heldQty p aid + amount := by
  obtain ⟨gs', hok, hfind, -, -, -, -, -⟩ := findPlayer_buy_ok hp ha hph hc
  exact ⟨gs', buyPlayer gs a aid amount p, hok, hfind,
    buyPlayer_cash gs a aid amount p, buyPlayer_heldQty gs a aid amount p⟩

/-- Witness for C10: buying −2 AAPL succeeds, raises cash to 10300, and
leaves a holding of quantity −2. -/
theorem c10_buy_no_positivity_witness :
    ((-2 : ℚ) * aapl.currentPrice ≤ aliceP.cash)
    ∧ (∃ gs' p', buy_asset "p1" "AAPL" (-2) 105 playingState = Except.ok gs'
        ∧ findPlayer "p1" gs' = some p'
        ∧ p'.cash = 10300
        ∧ heldQty p' "AAPL" = -2
        ∧ heldQty p' "AAPL" < 0) := by
  refine ⟨by norm_num [aapl, aliceP, create_player], ?_⟩
  obtain ⟨gs', p', hok, hfind, hcash, hqty⟩ :=
    c10_buy_no_positivity playingState "p1" "AAPL" (-2) 105 aliceP aapl rfl rfl rfl
      (by norm_num [aapl, aliceP, create_player])
  have hq2 : heldQty p' "AAPL" = -2 := by
    rw [hqty]
    norm_num [heldQty, aliceP, create_player]
  refine ⟨gs', p', hok, hfind, ?_, hq2, by rw [hq2]; norm_num⟩
  rw [hcash]
  norm_num [aapl, aliceP, create_player]

/-! Claim C7. -/

/-- C7: for a player whose prior holding of the asset is nonnegative (0 when
absent — the Holding data-model invariant even guarantees > 0), buying any
amount and immediately selling the same amount at the unchanged current price
returns the cash balance exactly to its pre-trade value, irrespective of the
avgBuyPrice bookkeeping. -/
theorem c7_round_trip (gs : GameState) (pid aid : String) (amount now now2 : ℚ)
    (p : Player) (a : Asset)
    (hp : findPlayer pid gs = some p) (ha : findAsset aid gs = some a)
    (hph : gs.phase = "PLAYING")
    (hq0 : 0 ≤ heldQty p aid)
    (hc : amount * a.currentPrice ≤ p.cash) :
    ∃ gs1 gs2 p2, buy_asset pid aid amount now gs = Except.ok gs1
      ∧ sell_asset pid aid amount now2 gs1 = Except.ok gs2
      ∧ findPlayer pid gs2 = some p2
      ∧ p2.cash = p.cash := by
  obtain ⟨gs1, hok1, hfind1, hassets1, hphase1, -, -, -⟩ := findPlayer_buy_ok hp ha hph hc
  obtain ⟨h', hh', hqty'⟩ := buyPlayer_holding gs a aid amount p
  have ha1 : findAsset aid gs1 = some a := by
    unfold findAsset at ha ⊢
    rw [hassets1]
    exact ha
  have hph1 : gs1.phase = "PLAYING" := by rw [hphase1, hph]
  have hql : amount ≤ h'.quantity := by
    rw [hqty']
    exact le_add_of_nonneg_left hq0
  obtain ⟨gs2, hok2, hfind2, -, -, -, -, -⟩ := findPlayer_sell_ok hfind1 ha1 hph1 hh' hql
  refine ⟨gs1, gs2, _, hok1, hok2, hfind2, ?_⟩
  rw [sellPlayer_cash, buyPlayer_cash, sub_add_cancel]

/-- Witness for C7: Alice buys then sells 3 AAPL and her cash returns to the
starting 10000. -/
theorem c7_round_trip_witness :
    ((0 : ℚ) ≤ heldQty aliceP "AAPL" ∧ (3 : ℚ) * aapl.currentPrice ≤ aliceP.cash)
    ∧ (∃ gs1 gs2 p2, buy_asset "p1" "AAPL" 3 105 playingState = Except.ok gs1
        ∧ sell_asset "p1" "AAPL" 3 107 gs1 = Except.ok gs2
        ∧ findPlayer "p1" gs2 = some p2
        ∧ p2.cash = aliceP.cash) :=
  ⟨⟨by norm_num [heldQty, aliceP, create_player], by norm_num [aapl, aliceP, create_player]⟩,
    c7_round_trip playingState "p1" "AAPL" 3 105 107 aliceP aapl rfl rfl rfl
      (by norm_num [heldQty, aliceP, create_player])
      (by norm_num [aapl, aliceP, create_player])⟩

/-! Claim C5. -/

theorem pyRound_of_lt_half {q : ℚ} {z : ℤ} (hfl : q.floor = z) (hlt : q - z < 1/2) :
    pyRound q = z := by
  simp only [pyRound, hfl]
  rw [if_pos hlt]

theorem pyRound_intCast (z : ℤ) : pyRound (z : ℚ) = z := by
  refine pyRound_of_lt_half ?_ (by norm_num)
  rw [Rat.floor_eq_intFloor, Int.floor_intCast]

theorem pyRound_nonneg {q : ℚ} (h : 0 ≤ q) : 0 ≤ pyRound q := by
  have hf : (0 : ℤ) ≤ q.floor := by
    rw [Rat.floor_eq_intFloor]
    exact Int.floor_nonneg.2 h
  simp only [pyRound]
  split
  · exact hf
  · split
    · omega
    · split <;> omega

theorem riskTotals_foldl_nonneg (assets : List Asset) :
    ∀ (hs : List Holding),
      (∀ h ∈ hs, ∀ a, assets.find? (fun a => a.id == h.assetId) = some a →
        0 ≤ h.quantity * a.currentPrice ∧ 0 ≤ a.baseVolatility) →
      ∀ acc : ℚ × ℚ, 0 ≤ acc.1 → 0 ≤ acc.2 →
        0 ≤ (hs.foldl (riskStep assets) acc).1 ∧ 0 ≤ (hs.foldl (riskStep assets) acc).2
  | [], _, acc, h1, h2 => ⟨h1, h2⟩
  | h :: hs, hn, acc, h1, h2 => by
    rw [List.foldl_cons]
    refine riskTotals_foldl_nonneg assets hs
      (fun x hx a ha => hn x (List.mem_cons_of_mem _ hx) a ha) _ ?_ ?_ <;>
      unfold riskStep <;>
      cases hfa : assets.find? (fun a => a.id == h.assetId) with
      | none => simpa
      | some a =>
        obtain ⟨hv, hb⟩ := hn h (List.mem_cons_self _ _) a hfa
        simp only
        · positivity

/-- C5 (amended): the risk score is always ≤ 100, is 0 whenever the total
portfolio weight is ≤ 0 (in particular with no holdings), and when the total
weight is positive it equals min(100, round(contribution/weight×100)) — with
no lower clamp, so it can be negative when the total contribution is
negative — minus 10 floored at 0 under SAFETY_FIRST; it does lie in [0,100]
whenever every matched holding has nonnegative value and volatility. -/
theorem c5_risk_score (p : Player) (assets : List Asset) :
    calculate_risk p assets ≤ 100
    ∧ ((riskTotals p assets).2 ≤ 0 → calculate_risk p assets = 0)
    ∧ (0 < (riskTotals p assets).2 →
        calculate_risk p assets =
          (if p.strategyId = some "SAFETY_FIRST"
            then max 0 (min 100
              (pyRound ((riskTotals p assets).1 / (riskTotals p assets).2 * 100)) - 10)
            else min 100
              (pyRound ((riskTotals p assets).1 / (riskTotals p assets).2 * 100))))
    ∧ ((∀ h ∈ p.holdings, ∀ a, assets.find? (fun a => a.id == h.assetId) = some a →
          0 ≤ h.quantity * a.currentPrice ∧ 0 ≤ a.baseVolatility) →
        0 ≤ calculate_risk p assets) := by
  refine ⟨?_, ?_, ?_, ?_⟩
  · simp only [calculate_risk]
    split
    · split
      · have : min 100 (pyRound ((riskTotals p assets).1 / (riskTotals p assets).2 * 100))
            ≤ 100 := min_le_left _ _
        omega
      · exact min_le_left _ _
    · norm_num
  · intro hle
    simp only [calculate_risk]
    rw [if_neg (not_lt.2 hle)]
  · intro hpos
    simp only [calculate_risk]
    rw [if_pos hpos]
  · intro hn
    have htot := riskTotals_foldl_nonneg assets p.holdings hn (0, 0) le_rfl le_rfl
    simp only [calculate_risk]
    split
    · rename_i hpos
      have ht1 : (0 : ℚ) ≤ (riskTotals p assets).1 := htot.1
      have hr : (0 : ℚ) ≤ (riskTotals p assets).1 / (riskTotals p assets).2 * 100 := by
        positivity
      have hround := pyRound_nonneg hr
      split
      · exact le_max_left _ _
      · exact le_min (by norm_num) hround
    · exact le_refl 0

/-- C5 counterexample: with positive quantities, nonnegative volatilities and
one below-zero price (total weight 990 > 0, total contribution −12500), the
computed risk score is −1263, not in [0,100]. -/
theorem c5_risk_score_counterexample :
    calculate_risk riskPlayer riskAssets = -1263
    ∧ ¬ (0 ≤ calculate_risk riskPlayer riskAssets
          ∧ calculate_risk riskPlayer riskAssets ≤ 100) := by
  have htot : riskTotals riskPlayer riskAssets = (-12500, 990) := by
    norm_num [riskTotals, riskStep, riskPlayer, riskAssets, create_player, List.find?,
      show (("X" : String) == "X") = true from rfl,
      show (("X" : String) == "Y") = false from rfl,
      show (("Y" : String) == "Y") = true from rfl]
  have hround : pyRound ((-12500 : ℚ) / 990 * 100) = -1263 := by
    refine pyRound_of_lt_half ?_ (by norm_num)
    rw [show ((-12500 : ℚ) / 990 * 100) = ((-125000 : ℤ) : ℚ) / ((99 : ℕ) : ℚ) by norm_num,
      Rat.floor_eq_intFloor, Rat.floor_intCast_div_natCast]
    norm_num
  have hval : calculate_risk riskPlayer riskAssets = -1263 := by
    simp only [calculate_risk, htot]
    rw [if_pos (by norm_num)]
    have hstrat : riskPlayer.strategyId = none := rfl
    rw [hstrat, if_neg (fun hco => Option.noConfusion hco)]
    simp only [hround]
    omega
  exact ⟨hval, by rw [hval]; norm_num⟩

/-- Witness for C5 on concrete inputs: Bob's one-asset portfolio has positive
weight and the score evaluates to the clamped formula, here 100. -/
theorem c5_risk_score_witness :
    ((0 : ℚ) < (riskTotals bobP INITIAL_ASSETS).2
      ∧ calculate_risk bobP INITIAL_ASSETS =
        (if bobP.strategyId = some "SAFETY_FIRST"
          then max 0 (min 100
            (pyRound ((riskTotals bobP INITIAL_ASSETS).1
              / (riskTotals bobP INITIAL_ASSETS).2 * 100)) - 10)
          else min 100
            (pyRound ((riskTotals bobP INITIAL_ASSETS).1
              / (riskTotals bobP INITIAL_ASSETS).2 * 100))))
    ∧ calculate_risk bobP INITIAL_ASSETS = 100 := by
  have htot : riskTotals bobP INITIAL_ASSETS = (300000, 750) := by
    norm_num [riskTotals, riskStep, bobP, create_player, INITIAL_ASSETS, List.find?,
      show (("AAPL" : String) == "AAPL") = true from rfl]
  have hpos : (0 : ℚ) < (riskTotals bobP INITIAL_ASSETS).2 := by
    rw [htot]
    norm_num
  have hround : pyRound ((riskTotals bobP INITIAL_ASSETS).1
      / (riskTotals bobP INITIAL_ASSETS).2 * 100) = 40000 := by
    rw [htot, show ((300000 : ℚ) : ℚ) / 750 * 100 = ((40000 : ℤ) : ℚ) by norm_num]
    exact pyRound_intCast 40000
  refine ⟨⟨hpos, (c5_risk_score bobP INITIAL_ASSETS).2.2.1 hpos⟩, ?_⟩
  have hstrat : bobP.strategyId = none := rfl
  rw [(c5_risk_score bobP INITIAL_ASSETS).2.2.1 hpos, hstrat,
    if_neg (fun hco => Option.noConfusion hco)]
  simp only [hround]
  omega

/-! Claim C8. -/

theorem updatedAsset_history_le (ev : Option MarketEvent) (sent : String → ℚ) (rnd : ℚ)
    (a : Asset) (h : a.history.length ≤ 50) :
    (updatedAsset ev sent rnd a).history.length ≤ 50 := by
  simp only [updatedAsset]
  split
  · rename_i hgt
    simp only [List.length_tail, List.length_append, List.length_cons, List.length_nil] at hgt ⊢
    omega
  · rename_i hle
    simp only [List.length_append, List.length_cons, List.length_nil] at hle ⊢
    omega

theorem mem_advanceAssets {ev : Option MarketEvent} {sent : String → ℚ} {rnd : ℕ → ℚ} :
    ∀ {i : ℕ} {l : List Asset} {b : Asset}, b ∈ advanceAssets ev sent rnd i l →
      ∃ j a, a ∈ l ∧ b = updatedAsset ev sent (rnd j) a
  | i, x :: xs, b, hb => by
    rcases List.mem_cons.1 hb with hb | hb
    · exact ⟨i, x, List.mem_cons_self _ _, hb⟩
    · obtain ⟨j, a, ha, hba⟩ := mem_advanceAssets hb
      exact ⟨j, a, List.mem_cons_of_mem _ ha, hba⟩

theorem update_prices_history_le (rnd : ℕ → ℚ) (gs : GameState)
    (h : ∀ a ∈ gs.assets, a.history.length ≤ 50) :
    ∀ a ∈ (update_prices rnd gs).assets, a.history.length ≤ 50 := by
  intro b hb
  obtain ⟨j, a, ha, hba⟩ := mem_advanceAssets hb
  rw [hba]
  exact updatedAsset_history_le _ _ _ _ (h a ha)

/-- C8: every asset's price history stays within the 50-entry bound across
any number of update_prices calls (each with its own stream of random
draws): each update appends the new price and evicts the oldest entry once
the length passes 50. -/
theorem c8_history_bound (gs : GameState) (fs : List (ℕ → ℚ))
    (h : ∀ a ∈ gs.assets, a.history.length ≤ 50) :
    ∀ a ∈ (fs.foldl (fun s f => update_prices f s) gs).assets, a.history.length ≤ 50 := by
  induction fs generalizing gs with
  | nil => exact h
  | cons f fs ih =>
    rw [List.foldl_cons]
    exact ih (update_prices f gs) (update_prices_history_le f gs h)

/-- Witness for C8: two updates on a fresh session keep every history within
the bound. -/
theorem c8_history_bound_witness :
    ((([fun _ => (1 : ℚ)/2, fun _ => (1 : ℚ)/3] : List (ℕ → ℚ)).foldl
        (fun s f => update_prices f s) (create_new_game "default" 0)).assets.all
      (fun a => a.history.length ≤ 50)) = true := by
  rw [List.all_eq_true]
  intro a ha
  exact decide_eq_true
    (c8_history_bound (create_new_game "default" 0) [fun _ => (1 : ℚ)/2, fun _ => (1 : ℚ)/3]
      (by intro x hx; fin_cases hx <;> norm_num [create_new_game, INITIAL_ASSETS]) a ha)

/-! Claim C2. -/

theorem tickWrite_assets (now : ℚ) (gs : GameState) : (tickWrite now gs).assets = gs.assets := by
  simp only [tickWrite]
  split <;> rfl

theorem specRemaining_nonneg (now t0 : ℚ) : 0 ≤ specRemaining now t0 :=
  le_max_left _ _

/-- C2: a state-poll on a PLAYING session with round start `t0 ≠ 0` and
`t0 ≤ now` sets timeRemaining to max(0, 35 − ⌊now − t0⌋); it advances the
asset prices exactly once when that remaining time is < 30 and not at all
otherwise; and at remaining time 0 it either advances the round
(currentRound+1, roundStartTime := now, timeRemaining := 35) while
currentRound < maxRounds, or else finishes the match and clears
roundStartTime. -/
theorem c2_tick_contract (gs : GameState) (t0 now : ℚ) (rnd : ℕ → ℚ)
    (hph : gs.phase = "PLAYING") (hrst : gs.roundStartTime = some t0)
    (ht0 : t0 ≠ 0) (hle : t0 ≤ now) :
    ((get_state now rnd gs).assets =
        (if specRemaining now t0 < 30
          then advanceAssets gs.activeEvent gs.sentiment rnd 0 gs.assets
          else gs.assets))
    ∧ (0 < specRemaining now t0 →
        (get_state now rnd gs).timeRemaining = specRemaining now t0
        ∧ (get_state now rnd gs).currentRound = gs.currentRound
        ∧ (get_state now rnd gs).phase = gs.phase
        ∧ (get_state now rnd gs).roundStartTime = gs.roundStartTime)
    ∧ (specRemaining now t0 = 0 → gs.currentRound < gs.maxRounds →
        (get_state now rnd gs).currentRound = gs.currentRound + 1
        ∧ (get_state now rnd gs).roundStartTime = some now
        ∧ (get_state now rnd gs).timeRemaining = 35
        ∧ (get_state now rnd gs).phase = gs.phase)
    ∧ (specRemaining now t0 = 0 → ¬ gs.currentRound < gs.maxRounds →
        (get_state now rnd gs).phase = "FINISHED"
        ∧ (get_state now rnd gs).roundStartTime = none) := by
  have htr : pyTrunc (now - t0) = ⌊now - t0⌋ := pyTrunc_eq_floor (sub_nonneg.2 hle)
  have hcond : gs.phase = "PLAYING" ∧ truthyTime (some t0) = true := by
    refine ⟨hph, ?_⟩
    simpa [truthyTime] using ht0
  simp only [get_state, tickRead, hrst, Option.getD_some, htr, specRemaining]
  rw [if_pos hcond]
  refine ⟨?_, ?_, ?_, ?_⟩
  · by_cases h0 : max 0 (35 - ⌊now - t0⌋) ≤ (0 : ℤ)
    · have hz : max 0 (35 - ⌊now - t0⌋) = (0 : ℤ) :=
        le_antisymm h0 (le_max_left _ _)
      rw [if_pos h0, tickWrite_assets]
      simp only [hz]
      rw [if_pos (show (0 : ℤ) < 30 by norm_num), if_pos (show (0 : ℤ) < 30 by norm_num)]
      rfl
    · rw [if_neg h0]
      by_cases h30 : max 0 (35 - ⌊now - t0⌋) < (30 : ℤ)
      · rw [if_pos h30, if_pos h30]
        rfl
      · rw [if_neg h30, if_neg h30]
  · intro hpos
    rw [if_neg (by omega)]
    by_cases h30 : max 0 (35 - ⌊now - t0⌋) < (30 : ℤ)
    · rw [if_pos h30]
      exact ⟨rfl, rfl, rfl, hrst ▸ rfl⟩
    · rw [if_neg h30]
      exact ⟨rfl, rfl, rfl, hrst ▸ rfl⟩
  · intro hz hlt
    rw [if_pos (le_of_eq hz)]
    simp only [hz]
    rw [if_pos (show (0 : ℤ) < 30 by norm_num)]
    simp only [tickWrite]
    split
    · exact ⟨rfl, rfl, rfl, rfl⟩
    · rename_i hcontra
      exact absurd hlt hcontra
  · intro hz hge
    rw [if_pos (le_of_eq hz)]
    simp only [hz]
    rw [if_pos (show (0 : ℤ) < 30 by norm_num)]
    simp only [tickWrite]
    split
    · rename_i hcontra
      exact absurd hcontra hge
    · exact ⟨rfl, rfl⟩

/-- Witness for C2 on a concrete session: a poll at now = 110 of a round
started at 100 leaves 25 remaining, advances prices once, and touches
neither round nor phase. -/
theorem c2_tick_contract_witness :
    (playingState.phase = "PLAYING" ∧ playingState.roundStartTime = some 100
      ∧ (100 : ℚ) ≠ 0 ∧ (100 : ℚ) ≤ 110 ∧ specRemaining 110 100 = 25)
    ∧ (get_state 110 (fun _ => (1 : ℚ)/2) playingState).assets =
        advanceAssets playingState.activeEvent playingState.sentiment
          (fun _ => (1 : ℚ)/2) 0 playingState.assets
    ∧ (get_state 110 (fun _ => (1 : ℚ)/2) playingState).timeRemaining = 25
    ∧ (get_state 110 (fun _ => (1 : ℚ)/2) playingState).currentRound = 1
    ∧ (get_state 110 (fun _ => (1 : ℚ)/2) playingState).phase = "PLAYING"
    ∧ (get_state 110 (fun _ => (1 : ℚ)/2) playingState).roundStartTime = some 100 := by
  have hspec : specRemaining 110 100 = 25 := by
    rw [specRemaining, show ((110 : ℚ) - 100) = ((10 : ℤ) : ℚ) by norm_num, Int.floor_intCast]
    norm_num
  have hc := c2_tick_contract playingState 100 110 (fun _ => (1 : ℚ)/2) rfl rfl
    (by norm_num) (by norm_num)
  refine ⟨⟨rfl, rfl, by norm_num, by norm_num, hspec⟩, ?_, ?_⟩
  · rw [hc.1, if_pos (by rw [hspec]; norm_num)]
  · have h2 := hc.2.1 (by rw [hspec]; norm_num)
    rw [hspec] at h2
    exact ⟨h2.1, h2.2.1, h2.2.2.1, h2.2.2.2⟩

/-! Claim C1. -/

theorem tickWrite_maxRounds (now : ℚ) (gs : GameState) :
    (tickWrite now gs).maxRounds = gs.maxRounds := by
  simp only [tickWrite]
  split <;> rfl

theorem tickWrite_currentRound_of_lt (now : ℚ) (gs : GameState)
    (h : gs.currentRound < gs.maxRounds) :
    (tickWrite now gs).currentRound = gs.currentRound + 1 := by
  simp only [tickWrite]
  rw [if_pos h]

/-- C1 fails on the code: in get_state the whole read-decide part (computing
`time_remaining` from `roundStartTime`, storing it, updating prices) runs
with no lock held — only the round-advance write takes `game_locks[game_id]`
(lines 300-318).  A single poll at the boundary (now = 135, round started at
100) advances the round once, to 2; but two concurrent polls, both of whose
unlocked reads observe remaining = 0 before either locked write runs,
advance it twice, to 3 — not exactly once as the claim requires. -/
theorem c1_double_round_advance :
    (get_state 135 (fun _ => (1 : ℚ)/2) playingState).currentRound = 2
    ∧ (interleavedDoublePoll 135 (fun _ => (1 : ℚ)/2) playingState).currentRound = 3 := by
  have htr : pyTrunc ((135 : ℚ) - 100) = 35 := by
    rw [pyTrunc_eq_floor (by norm_num), show ((135 : ℚ) - 100) = ((35 : ℤ) : ℚ) by norm_num,
      Int.floor_intCast]
  have hmax : max (0 : ℤ) (35 - 35) = (0 : ℤ) := by norm_num
  have hpoll : ∀ gs : GameState, gs.phase = "PLAYING" → gs.roundStartTime = some 100 →
      pollUnlocked 135 (fun _ => (1 : ℚ)/2) gs =
        some ((0 : ℤ), update_prices (fun _ => (1 : ℚ)/2) { gs with timeRemaining := 0 }) := by
    intro gs hph hrst
    have hcond : gs.phase = "PLAYING" ∧ truthyTime (some (100 : ℚ)) = true :=
      ⟨hph, by simpa [truthyTime] using (by norm_num : (100 : ℚ) ≠ 0)⟩
    simp only [pollUnlocked, tickRead, hrst, Option.getD_some, htr, hmax]
    rw [if_pos hcond, if_pos (show (0 : ℤ) < 30 by norm_num)]
  constructor
  · have hcond : playingState.phase = "PLAYING" ∧ truthyTime (some (100 : ℚ)) = true :=
      ⟨rfl, by simpa [truthyTime] using (by norm_num : (100 : ℚ) ≠ 0)⟩
    simp only [get_state, tickRead, show playingState.roundStartTime = some 100 from rfl,
      Option.getD_some, htr, hmax]
    rw [if_pos hcond, if_pos (le_refl (0 : ℤ)), if_pos (show (0 : ℤ) < 30 by norm_num),
      tickWrite_currentRound_of_lt _ _ (show ((1 : ℤ) < 5) from by norm_num)]
    exact (show ((1 : ℤ) + 1 = 2) from by norm_num)
  · have hA := hpoll playingState rfl rfl
    have hB := hpoll (update_prices (fun _ => (1 : ℚ)/2) { playingState with timeRemaining := 0 })
      rfl rfl
    simp only [interleavedDoublePoll, hA, hB]
    rw [if_pos (le_refl (0 : ℤ)), if_pos (le_refl (0 : ℤ))]
    have hinner : (update_prices (fun _ => (1 : ℚ)/2)
        { update_prices (fun _ => (1 : ℚ)/2) { playingState with timeRemaining := 0 } with
            timeRemaining := 0 }).currentRound = (1 : ℤ) := rfl
    have houter := tickWrite_currentRound_of_lt (135 : ℚ)
      (update_prices (fun _ => (1 : ℚ)/2)
        { update_prices (fun _ => (1 : ℚ)/2) { playingState with timeRemaining := 0 } with
            timeRemaining := 0 })
      (show ((1 : ℤ) < 5) from by norm_num)
    rw [tickWrite_currentRound_of_lt _ _ (by
        rw [houter, tickWrite_maxRounds]
        exact (show ((1 : ℤ) + 1 < 5) from by norm_num)),
      houter]
    exact (show ((1 : ℤ) + 1 + 1 = 3) from by norm_num)

/-! Claim C9. -/

theorem buy_asset_ok_shape {pid aid : String} {amount now : ℚ} {gs gs1 : GameState}
    (h : buy_asset pid aid amount now gs = .ok gs1) :
    ∃ p a, gs.players.find? (fun q => q.id == pid) = some p
      ∧ gs.assets.find? (fun q => q.id == aid) = some a
      ∧ gs1 = buyState gs a pid aid amount now p := by
  unfold buy_asset at h
  split at h
  · rename_i p a hp ha
    split at h
    · split at h
      · cases h
        exact ⟨p, a, hp, ha, rfl⟩
      · exact absurd h (by simp)
    · exact absurd h (by simp)
  · exact absurd h (by simp)

theorem sell_asset_ok_shape {pid aid : String} {amount now : ℚ} {gs gs1 : GameState}
    (h : sell_asset pid aid amount now gs = .ok gs1) :
    ∃ p a hold, gs.players.find? (fun q => q.id == pid) = some p
      ∧ gs.assets.find? (fun q => q.id == aid) = some a
      ∧ gs1 = sellState gs a pid aid amount now p hold := by
  unfold sell_asset at h
  split at h
  · rename_i p a hp ha
    split at h
    · split at h
      · rename_i hold hh
        split at h
        · cases h
          exact ⟨p, a, hold, hp, ha, rfl⟩
        · exact absurd h (by simp)
      · exact absurd h (by simp)
    · exact absurd h (by simp)
  · exact absurd h (by simp)

theorem use_powerup_ok_shape {pid puid : String} {now : ℚ} {gs gs1 : GameState}
    (h : use_powerup pid puid now gs = .ok gs1) :
    ∃ p p2, gs.players.find? (fun q => q.id == pid) = some p
      ∧ p2.transactionLog = p.transactionLog
      ∧ gs1.activeEvent = gs.activeEvent
      ∧ gs1.sentiment = gs.sentiment
      ∧ gs1.players = replaceFirstBy (fun q => q.id == pid) (fun _ => p2) gs.players := by
  unfold use_powerup at h
  split at h
  · exact absurd h (by simp)
  · rename_i p hfind
    split at h
    · rename_i u hu
      split at h
      · exact absurd h (by simp)
      · cases h
        refine ⟨p, _, hfind, ?_, rfl, rfl, rfl⟩
        split
        · rfl
        · split
          · rfl
          · rfl
    · exact absurd h (by simp)

theorem join_game_ok_shape {nm : String} {now : ℚ} {gs : GameState} {r : String × GameState}
    (h : join_game nm now gs = .ok r) :
    r.2 = { gs with lastUpdate := now }
    ∨ ∃ pid, r.2 =
        { gs with
            players := gs.players ++ [create_player pid nm]
            lastUpdate := now } := by
  unfold join_game at h
  split at h
  · exact absurd h (by simp)
  · split at h
    · cases h
      exact Or.inl rfl
    · cases h
      exact Or.inr ⟨_, rfl⟩

theorem cleanSession_create (gid : String) (now : ℚ) :
    cleanSession (create_new_game gid now) := by
  refine ⟨rfl, fun t => rfl, ?_⟩
  intro p hp
  simp [create_new_game] at hp

theorem cleanSession_update_prices (rnd : ℕ → ℚ) (gs : GameState) (h : cleanSession gs) :
    cleanSession (update_prices rnd gs) := by
  obtain ⟨h1, h2, h3⟩ := h
  refine ⟨h1, h2, ?_⟩
  intro p hp tx htx
  simp only [update_prices] at hp
  rcases List.mem_map.1 hp with ⟨q, hq, rfl⟩
  exact h3 q hq tx htx

theorem cleanSession_tickRead (now : ℚ) (rnd : ℕ → ℚ) (gs : GameState) (h : cleanSession gs) :
    cleanSession (tickRead now rnd gs).2 := by
  simp only [tickRead]
  split
  · exact cleanSession_update_prices _ _ h
  · exact h

theorem cleanSession_tickWrite (now : ℚ) (gs : GameState) (h : cleanSession gs) :
    cleanSession (tickWrite now gs) := by
  simp only [tickWrite]
  split
  · exact h
  · exact h

theorem cleanSession_get_state (now : ℚ) (rnd : ℕ → ℚ) (gs : GameState) (h : cleanSession gs) :
    cleanSession (get_state now rnd gs) := by
  simp only [get_state]
  split
  · split
    · exact cleanSession_tickWrite _ _ (cleanSession_tickRead now rnd gs h)
    · exact cleanSession_tickRead now rnd gs h
  · exact h

theorem cleanSession_buyState (gs : GameState) (a : Asset) (pid aid : String)
    (amount now : ℚ) (p : Player) (h : cleanSession gs)
    (hp : gs.players.find? (fun q => q.id == pid) = some p) :
    cleanSession (buyState gs a pid aid amount now p) := by
  obtain ⟨h1, h2, h3⟩ := h
  refine ⟨h1, h2, ?_⟩
  intro q hq tx htx
  simp only [buyState] at hq
  rcases mem_replaceFirstBy hq with hq | ⟨x, hx, rfl⟩
  · exact h3 q hq tx htx
  · rw [buyPlayer_log] at htx
    rcases List.mem_append.1 htx with htx | htx
    · exact h3 p (List.mem_of_find?_eq_some hp) tx htx
    · rw [List.mem_singleton] at htx
      subst htx
      exact ⟨by simp [buyTx, h1], by simp [buyTx, h2]⟩

theorem cleanSession_sellState (gs : GameState) (a : Asset) (pid aid : String)
    (amount now : ℚ) (p : Player) (hold : Holding) (h : cleanSession gs)
    (hp : gs.players.find? (fun q => q.id == pid) = some p) :
    cleanSession (sellState gs a pid aid amount now p hold) := by
  obtain ⟨h1, h2, h3⟩ := h
  refine ⟨h1, h2, ?_⟩
  intro q hq tx htx
  simp only [sellState] at hq
  rcases mem_replaceFirstBy hq with hq | ⟨x, hx, rfl⟩
  · exact h3 q hq tx htx
  · rw [sellPlayer_log] at htx
    rcases List.mem_append.1 htx with htx | htx
    · exact h3 p (List.mem_of_find?_eq_some hp) tx htx
    · rw [List.mem_singleton] at htx
      subst htx
      exact ⟨by simp [sellTx, h1], by simp [sellTx, h2]⟩

theorem cleanSession_applyOp (o : Op) (gs : GameState) (h : cleanSession gs) :
    cleanSession (applyOp o gs) := by
  obtain ⟨h1, h2, h3⟩ := h
  cases o with
  | opJoin nm now =>
    simp only [applyOp]
    cases hj : join_game nm now gs with
    | error e => exact ⟨h1, h2, h3⟩
    | ok r =>
      show cleanSession r.2
      rcases join_game_ok_shape hj with hsh | ⟨pid, hsh⟩
      · rw [hsh]
        exact ⟨h1, h2, h3⟩
      · rw [hsh]
        refine ⟨h1, h2, ?_⟩
        intro p hp tx htx
        rcases List.mem_append.1 hp with hp | hp
        · exact h3 p hp tx htx
        · rw [List.mem_singleton] at hp
          subst hp
          simp [create_player] at htx
  | opGetState now rnd => exact cleanSession_get_state now rnd gs ⟨h1, h2, h3⟩
  | opStart scen now =>
    simp only [applyOp, start_game]
    split
    · exact ⟨h1, h2, h3⟩
    · exact ⟨h1, h2, h3⟩
  | opSelectAvatar pid aid now =>
    simp only [applyOp, select_avatar]
    split
    · rename_i p hp
      refine ⟨h1, h2, ?_⟩
      intro q hq tx htx
      rcases mem_replaceFirstBy hq with hq | ⟨x, hx, rfl⟩
      · exact h3 q hq tx htx
      · exact h3 x hx tx htx
    · exact ⟨h1, h2, h3⟩
  | opSelectStrategy pid sid now =>
    simp only [applyOp, select_strategy]
    split
    · rename_i p hp
      refine ⟨h1, h2, ?_⟩
      intro q hq tx htx
      rcases mem_replaceFirstBy hq with hq | ⟨x, hx, rfl⟩
      · exact h3 q hq tx htx
      · exact h3 x hx tx htx
    · exact ⟨h1, h2, h3⟩
  | opBuy pid aid amount now =>
    simp only [applyOp]
    cases hbuy : buy_asset pid aid amount now gs with
    | error e => exact ⟨h1, h2, h3⟩
    | ok gs1 =>
      obtain ⟨p, a, hp, ha, rfl⟩ := buy_asset_ok_shape hbuy
      exact cleanSession_buyState gs a pid aid amount now p ⟨h1, h2, h3⟩ hp
  | opSell pid aid amount now =>
    simp only [applyOp]
    cases hsell : sell_asset pid aid amount now gs with
    | error e => exact ⟨h1, h2, h3⟩
    | ok gs1 =>
      obtain ⟨p, a, hold, hp, ha, rfl⟩ := sell_asset_ok_shape hsell
      exact cleanSession_sellState gs a pid aid amount now p hold ⟨h1, h2, h3⟩ hp
  | opPowerUp pid puid now =>
    simp only [applyOp]
    cases hpu : use_powerup pid puid now gs with
    | error e => exact ⟨h1, h2, h3⟩
    | ok gs1 =>
      show cleanSession gs1
      obtain ⟨p, p2, hp, hlog, hev, hsent, hpl⟩ := use_powerup_ok_shape hpu
      refine ⟨hev.trans h1, fun t => by rw [hsent]; exact h2 t, ?_⟩
      intro q hq tx htx
      rw [hpl] at hq
      rcases mem_replaceFirstBy hq with hq | ⟨x, hx, rfl⟩
      · exact h3 q hq tx htx
      · rw [hlog] at htx
        exact h3 p (List.mem_of_find?_eq_some hp) tx htx
  | opReset now => exact cleanSession_create gs.id now

/-- C9: in every state reachable through the public operations, the active
event is None and all per-type sentiment is 0 — no operation ever sets them —
so every TransactionRecord carries eventActive = None and
sentimentAtTime = 0, and a price update degenerates to the pure random-walk
term (its event-impact and sentiment-drift terms vanish). -/
theorem c9_reachable_clean (gs : GameState) (h : Reachable gs) :
    (gs.activeEvent = none ∧ (∀ t, gs.sentiment t = 0)
      ∧ ∀ p ∈ gs.players, ∀ tx ∈ p.transactionLog,
          tx.eventActive = none ∧ tx.sentimentAtTime = 0)
    ∧ ∀ rnd, (update_prices rnd gs).assets = advanceAssets none (fun _ => 0) rnd 0 gs.assets := by
  have hclean : cleanSession gs := by
    induction h with
    | init gid now => exact cleanSession_create gid now
    | step o gs hr ih => exact cleanSession_applyOp o gs ih
  refine ⟨hclean, ?_⟩
  intro rnd
  have hsent : gs.sentiment = fun _ => 0 := funext fun t => hclean.2.1 t
  simp only [update_prices, hclean.1, hsent]

/-- Witness for C9: a session created at time 0 and started at time 100 has
no active event and zero CRYPTO sentiment. -/
theorem c9_reachable_clean_witness :
    (applyOp (Op.opStart "BULL_RUN" 100) (create_new_game "default" 0)).activeEvent = none
    ∧ (applyOp (Op.opStart "BULL_RUN" 100) (create_new_game "default" 0)).sentiment "CRYPTO" = 0 := by
  have h := c9_reachable_clean (applyOp (Op.opStart "BULL_RUN" 100) (create_new_game "default" 0))
    (Reachable.step (Op.opStart "BULL_RUN" 100) (create_new_game "default" 0)
      (Reachable.init "default" 0))
  exact ⟨h.1.1, h.1.2.1 "CRYPTO"⟩

/-! Claim C6. -/

theorem resultGE_trans (a b c : ResultRecord) (hab : resultGE a b) (hbc : resultGE b c) :
    resultGE a c := by
  simp only [resultGE, decide_eq_true_eq] at *
  exact le_trans hbc hab

theorem resultGE_total (a b : ResultRecord) : resultGE a b || resultGE b a := by
  simp only [resultGE]
  rcases le_total a.riskAdjustedScore b.riskAdjustedScore with h | h <;> simp [h]

theorem assignRanks_map_strip : ∀ (n : ℕ) (l : List ResultRecord),
    (assignRanks n l).map stripRank = l.map stripRank
  | _, [] => rfl
  | n, r :: rest => by
    simp only [assignRanks, List.map_cons, assignRanks_map_strip (n + 1) rest]
    rfl

theorem assignRanks_get : ∀ (l : List ResultRecord) (n i : ℕ)
    (hi : i < (assignRanks n l).length),
    ((assignRanks n l).get ⟨i, hi⟩).rank = n + i + 1
  | r :: rest, n, 0, hi => rfl
  | r :: rest, n, i + 1, hi => by
    have h' : i < (assignRanks (n + 1) rest).length := by
      have hlen := hi
      simp only [assignRanks, List.length_cons] at hlen
      omega
    have ih := assignRanks_get rest (n + 1) i h'
    show ((assignRanks (n + 1) rest).get ⟨i, h'⟩).rank = n + (i + 1) + 1
    rw [ih]
    omega

theorem map_strip_of_ranks_zero {l : List ResultRecord}
    (h : ∀ r ∈ l, r.rank = 0) : l.map stripRank = l := by
  have : ∀ r ∈ l, stripRank r = id r := by
    intro r hr
    have hz := h r hr
    simp [stripRank, id]
    cases r
    simp only [stripRank]
    simp_all
  rw [List.map_congr_left this, List.map_id]

/-- C6: results fails with NotReady whenever the phase is not FINISHED;
otherwise it returns one record per player — finalValue with the one-time
+5% DIVERSIFIER bonus for ≥ 4 distinct held assets,
roi = (finalValue−10000)/10000×100 and
riskAdjustedScore = roi − riskScore×0.5 — sorted descending by
riskAdjustedScore, with join order preserved among equal scores, and ranks
assigned 1..N by sorted position. -/
theorem c6_results_contract (gs : GameState) :
    (gs.phase ≠ "FINISHED" → get_results gs = Except.error ApiError.notReady)
    ∧ (gs.phase = "FINISHED" →
      ∃ out, get_results gs = Except.ok out
        ∧ (out.map stripRank).Perm (gs.players.map resultEntry)
        ∧ (out.map stripRank).Pairwise
            (fun x y => y.riskAdjustedScore ≤ x.riskAdjustedScore)
        ∧ (∀ c : ℚ, (out.map stripRank).filter (fun r => decide (r.riskAdjustedScore = c))
            = (gs.players.map resultEntry).filter (fun r => decide (r.riskAdjustedScore = c)))
        ∧ (∀ i (hi : i < out.length), (out.get ⟨i, hi⟩).rank = i + 1)
        ∧ (∀ p : Player, (resultEntry p).roi = ((resultEntry p).finalValue - 10000) / 10000 * 100
            ∧ (resultEntry p).riskAdjustedScore =
                (resultEntry p).roi - (p.riskScore : ℚ) * (5/10)
            ∧ (resultEntry p).finalValue =
                (if p.strategyId = some "DIVERSIFIER" ∧ 4 ≤ distinctAssetCount p
                  then p.totalValue + p.totalValue * (5/100) else p.totalValue))) := by
  constructor
  · intro hne
    unfold get_results
    rw [if_pos hne]
  · intro hfin
    unfold get_results
    rw [if_neg (by simp [hfin])]
    have hzero : ∀ r ∈ (gs.players.map resultEntry).mergeSort resultGE, r.rank = 0 := by
      intro r hr
      rcases List.mem_map.1 (List.mem_mergeSort.1 hr) with ⟨p, -, rfl⟩
      rfl
    have hstrip : (assignRanks 0 ((gs.players.map resultEntry).mergeSort resultGE)).map stripRank
        = (gs.players.map resultEntry).mergeSort resultGE := by
      rw [assignRanks_map_strip, map_strip_of_ranks_zero hzero]
    refine ⟨_, rfl, ?_, ?_, ?_, ?_, ?_⟩
    · rw [hstrip]
      exact List.mergeSort_perm _ _
    · rw [hstrip]
      have hs := List.sorted_mergeSort resultGE_trans
        (fun a b => resultGE_total a b) (gs.players.map resultEntry)
      exact hs.imp (fun hab => by simpa [resultGE, decide_eq_true_eq] using hab)
    · intro c
      rw [hstrip]
      have hF : ((gs.players.map resultEntry).filter
          (fun r => decide (r.riskAdjustedScore = c))).Pairwise
            (fun a b => resultGE a b = true) := by
        refine List.pairwise_of_forall_mem_list ?_
        intro a ha b hb
        have ha2 := (List.mem_filter.1 ha).2
        have hb2 := (List.mem_filter.1 hb).2
        simp only [decide_eq_true_eq] at ha2 hb2
        simp [resultGE, ha2, hb2]
      have h1 : List.Sublist
          ((gs.players.map resultEntry).filter (fun r => decide (r.riskAdjustedScore = c)))
          ((gs.players.map resultEntry).mergeSort resultGE) :=
        List.sublist_mergeSort resultGE_trans (fun a b => resultGE_total a b) hF
          (List.filter_sublist _)
      have h2 : List.Sublist
          ((gs.players.map resultEntry).filter (fun r => decide (r.riskAdjustedScore = c)))
          (((gs.players.map resultEntry).mergeSort resultGE).filter
            (fun r => decide (r.riskAdjustedScore = c))) := by
        have := List.Sublist.filter (fun r => decide (r.riskAdjustedScore = c)) h1
        rw [List.filter_filter] at this
        simpa only [Bool.and_self] using this
      have h3 : (((gs.players.map resultEntry).mergeSort resultGE).filter
          (fun r => decide (r.riskAdjustedScore = c))).Perm
            ((gs.players.map resultEntry).filter (fun r => decide (r.riskAdjustedScore = c))) :=
        (List.mergeSort_perm _ _).filter _
      exact (h2.eq_of_length h3.length_eq.symm).symm
    · intro i hi
      have := assignRanks_get ((gs.players.map resultEntry).mergeSort resultGE) 0 i hi
      simpa using this
    · intro p
      exact ⟨rfl, rfl, rfl⟩

/-- Witness for C6 on a concrete finished two-player session. -/
theorem c6_results_contract_witness :
    ∃ out, get_results finishedState = Except.ok out
      ∧ (out.map stripRank).Perm (finishedState.players.map resultEntry)
      ∧ (out.map stripRank).Pairwise
          (fun x y => y.riskAdjustedScore ≤ x.riskAdjustedScore)
      ∧ (∀ c : ℚ, (out.map stripRank).filter (fun r => decide (r.riskAdjustedScore = c))
          = (finishedState.players.map resultEntry).filter
              (fun r => decide (r.riskAdjustedScore = c)))
      ∧ (∀ i (hi : i < out.length), (out.get ⟨i, hi⟩).rank = i + 1)
      ∧ (∀ p : Player, (resultEntry p).roi = ((resultEntry p).finalValue - 10000) / 10000 * 100
          ∧ (resultEntry p).riskAdjustedScore =
              (resultEntry p).roi - (p.riskScore : ℚ) * (5/10)
          ∧ (resultEntry p).finalValue =
              (if p.strategyId = some "DIVERSIFIER" ∧ 4 ≤ distinctAssetCount p
                then p.totalValue + p.totalValue * (5/100) else p.totalValue)) :=
  (c6_results_contract finishedState).2 rfl

end BullBear
